import Mathlib

/-!
Verification of the markdown-to-HTML converter in `markdown2html.py`.

Lines and blocks are modelled as `List Char`.  Python strings map to
`List Char`, Python byte strings to `List Nat` (each entry `< 256`).
The single-pass block assembler `convert_md_to_html` is embedded as a
fold over the input lines carrying the assembler state (emitted html
blocks, currently open list kind, buffered paragraph lines), exactly
mirroring the loop of the source.
-/

namespace Markdown2Html

abbrev Line := List Char

/-- ASCII whitespace, as recognised by Python's `str.strip`/`\s`
(restricted to the ASCII range). -/
def pyIsSpace (c : Char) : Bool :=
  c == ' ' || c == '\t' || c == '\n' || c == '\r' || c == '\x0b' || c == '\x0c'

/-- Python `str.rstrip()` with no argument: drop trailing whitespace. -/
def pyRstrip (l : Line) : Line := (l.reverse.dropWhile pyIsSpace).reverse

/-- Python `str.lstrip()` with no argument: drop leading whitespace. -/
def pyLstrip (l : Line) : Line := l.dropWhile pyIsSpace

/-- Python `str.strip()` with no argument. -/
def pyStrip (l : Line) : Line := pyRstrip (pyLstrip l)

/-! ## MD5 (`hashlib.md5`, per RFC 1321) and UTF-8 encoding (`str.encode`) -/

/-- UTF-8 encoding of a single character (Python `str.encode()`). -/
def utf8Bytes (c : Char) : List Nat :=
  let n := c.toNat
  if n < 0x80 then [n]
  else if n < 0x800 then [0xc0 + n / 0x40, 0x80 + n % 0x40]
  else if n < 0x10000 then
    [0xe0 + n / 0x1000, 0x80 + n / 0x40 % 0x40, 0x80 + n % 0x40]
  else
    [0xf0 + n / 0x40000, 0x80 + n / 0x1000 % 0x40, 0x80 + n / 0x40 % 0x40, 0x80 + n % 0x40]

/-- UTF-8 encoding of a string. -/
def strBytes (l : List Char) : List Nat := (l.map utf8Bytes).flatten

/-- `n` bytes of `x`, little endian. -/
def leBytes : Nat → Nat → List Nat
  | 0, _ => []
  | n + 1, x => x % 256 :: leBytes n (x / 256)

/-- Read a little-endian byte list as a number. -/
def leNum : List Nat → Nat
  | [] => 0
  | b :: rest => b % 256 + 256 * leNum rest

/-- Rotate a 32-bit word left by `s`. -/
def rotl32 (s x : Nat) : Nat := ((x <<< s) % 2 ^ 32) ||| (x >>> (32 - s))

/-- The 64 MD5 sine-derived constants. -/
def md5K : List Nat :=
  [0xd76aa478, 0xe8c7b756, 0x242070db, 0xc1bdceee,
   0xf57c0faf, 0x4787c62a, 0xa8304613, 0xfd469501,
   0x698098d8, 0x8b44f7af, 0xffff5bb1, 0x895cd7be,
   0x6b901122, 0xfd987193, 0xa679438e, 0x49b40821,
   0xf61e2562, 0xc040b340, 0x265e5a51, 0xe9b6c7aa,
   0xd62f105d, 0x02441453, 0xd8a1e681, 0xe7d3fbc8,
   0x21e1cde6, 0xc33707d6, 0xf4d50d87, 0x455a14ed,
   0xa9e3e905, 0xfcefa3f8, 0x676f02d9, 0x8d2a4c8a,
   0xfffa3942, 0x8771f681, 0x6d9d6122, 0xfde5380c,
   0xa4beea44, 0x4bdecfa9, 0xf6bb4b60, 0xbebfbc70,
   0x289b7ec6, 0xeaa127fa, 0xd4ef3085, 0x04881d05,
   0xd9d4d039, 0xe6db99e5, 0x1fa27cf8, 0xc4ac5665,
   0xf4292244, 0x432aff97, 0xab9423a7, 0xfc93a039,
   0x655b59c3, 0x8f0ccc92, 0xffeff47d, 0x85845dd1,
   0x6fa87e4f, 0xfe2ce6e0, 0xa3014314, 0x4e0811a1,
   0xf7537e82, 0xbd3af235, 0x2ad7d2bb, 0xeb86d391]

/-- The 64 MD5 per-round left-rotation amounts. -/
def md5S : List Nat :=
  [7, 12, 17, 22, 7, 12, 17, 22, 7, 12, 17, 22, 7, 12, 17, 22,
   5, 9, 14, 20, 5, 9, 14, 20, 5, 9, 14, 20, 5, 9, 14, 20,
   4, 11, 16, 23, 4, 11, 16, 23, 4, 11, 16, 23, 4, 11, 16, 23,
   6, 10, 15, 21, 6, 10, 15, 21, 6, 10, 15, 21, 6, 10, 15, 21]

/-- The MD5 round function `F/G/H/I`, selected by round index. -/
def md5F (i b c d : Nat) : Nat :=
  if i < 16 then (b &&& c) ||| ((b ^^^ 0xffffffff) &&& d)
  else if i < 32 then (d &&& b) ||| ((d ^^^ 0xffffffff) &&& c)
  else if i < 48 then b ^^^ c ^^^ d
  else c ^^^ (b ||| (d ^^^ 0xffffffff))

/-- The MD5 message-word index for round `i`. -/
def md5G (i : Nat) : Nat :=
  if i < 16 then i
  else if i < 32 then (5 * i + 1) % 16
  else if i < 48 then (3 * i + 5) % 16
  else 7 * i % 16

/-- One MD5 round on state `(a, b, c, d)`. -/
def md5Step (m : Nat → Nat) (st : Nat × Nat × Nat × Nat) (i : Nat) :
    Nat × Nat × Nat × Nat :=
  let a := st.1
  let b := st.2.1
  let c := st.2.2.1
  let d := st.2.2.2
  let f := (md5F i b c d + a + md5K.getD i 0 + m (md5G i)) % 2 ^ 32
  (d, (b + rotl32 (md5S.getD i 0) f) % 2 ^ 32, b, c)

/-- Process one 64-byte chunk. -/
def md5Chunk (st : Nat × Nat × Nat × Nat) (block : List Nat) :
    Nat × Nat × Nat × Nat :=
  let m := fun g => leNum ((block.drop (4 * g)).take 4)
  let w := (List.range 64).foldl (md5Step m) st
  ((st.1 + w.1) % 2 ^ 32, (st.2.1 + w.2.1) % 2 ^ 32,
   (st.2.2.1 + w.2.2.1) % 2 ^ 32, (st.2.2.2 + w.2.2.2) % 2 ^ 32)

/-- Process `n` consecutive 64-byte chunks of a padded message. -/
def md5BlocksN : Nat → Nat × Nat × Nat × Nat → List Nat → Nat × Nat × Nat × Nat
  | 0, st, _ => st
  | n + 1, st, l => md5BlocksN n (md5Chunk st (l.take 64)) (l.drop 64)

/-- Process a padded message (whose length is a multiple of 64)
64 bytes at a time. -/
def md5Blocks (st : Nat × Nat × Nat × Nat) (l : List Nat) :
    Nat × Nat × Nat × Nat :=
  md5BlocksN (l.length / 64) st l

/-- MD5 padding: `0x80`, zeros to 56 mod 64, then the bit length. -/
def md5Pad (msg : List Nat) : List Nat :=
  msg ++ 0x80 :: List.replicate ((119 - msg.length % 64) % 64) 0
      ++ leBytes 8 (msg.length * 8 % 2 ^ 64)

/-- The 16-byte MD5 digest of a byte message. -/
def md5Digest (msg : List Nat) : List Nat :=
  let w := md5Blocks (0x67452301, 0xefcdab89, 0x98badcfe, 0x10325476) (md5Pad msg)
  leBytes 4 w.1 ++ leBytes 4 w.2.1 ++ leBytes 4 w.2.2.1 ++ leBytes 4 w.2.2.2

/-- Lowercase hexadecimal digit. -/
def hexChar (n : Nat) : Char :=
  if n < 10 then Char.ofNat (48 + n) else Char.ofNat (87 + n)

/-- Two lowercase hex digits of a byte. -/
def byteHex (b : Nat) : List Char := [hexChar (b / 16 % 16), hexChar (b % 16)]

/-- `md5_hash(text)`: lowercase hex MD5 digest of the UTF-8 bytes of `text`. -/
def md5_hash (text : List Char) : List Char :=
  ((md5Digest (strBytes text)).map byteHex).flatten

/-! ## The `re.sub` substitution scanners

Python's `re.sub` scans left to right; at each position it tries the
pattern and, on failure, moves one character forward.  For the patterns of
the source (`\[\[(.*?)\]\]`, `\(\((.*?)\)\)`, `\*\*(.+?)\*\*`,
`__(.+?)__`) a match at a position holds the shortest span closed by the
first later occurrence of the two-character closing delimiter
(for `.+?`, the first occurrence leaving a non-empty span). -/

/-- Split a string at the first occurrence of the two adjacent
characters `c, c`: `splitPair c l = some (x, post)` iff
`l = x ++ [c, c] ++ post` with no `c, c` pair inside or overlapping `x`. -/
def splitPair (c : Char) : List Char → Option (List Char × List Char)
  | [] => none
  | [_] => none
  | a :: b :: rest =>
    if a == c && b == c then some ([], rest)
    else
      match splitPair c (b :: rest) with
      | some (pre, post) => some (a :: pre, post)
      | none => none

/-- Split at the first `c, c` pair lying strictly after the first
character (the closer of a non-empty `.+?` span). -/
def splitPair1 (c : Char) : List Char → Option (List Char × List Char)
  | [] => none
  | a :: rest =>
    match splitPair c rest with
    | some (x, post) => some (a :: x, post)
    | none => none

/-- `re.sub` for the pattern `oo(.*?)cc` (two copies of an opening
character `opn`, a non-greedy possibly-empty span, two copies of a
closing character `cls`), replacing each matched span `x` by `f x`.
The fuel argument makes the recursion structural; it only needs to be
at least the length of the string (at least one character of the string
is consumed per step). -/
def subSpanF (opn cls : Char) (f : List Char → List Char) : Nat → List Char → List Char
  | _, [] => []
  | 0, a :: rest => a :: rest
  | fuel + 1, a :: rest =>
    if a == opn then
      match rest with
      | [] => [a]
      | b :: rest2 =>
        if b == opn then
          match splitPair cls rest2 with
          | some (x, post) => f x ++ subSpanF opn cls f fuel post
          | none => a :: subSpanF opn cls f fuel (b :: rest2)
        else a :: subSpanF opn cls f fuel (b :: rest2)
    else a :: subSpanF opn cls f fuel rest

/-- The substitution itself, with sufficient fuel. -/
def subSpan (opn cls : Char) (f : List Char → List Char) (l : List Char) : List Char :=
  subSpanF opn cls f l.length l

/-- `re.sub` for the pattern `dd(.+?)dd` (the bold and emphasis
patterns), wrapping each matched non-empty span between `pre` and `suf`.
Fueled as `subSpanF`. -/
def subDelimF (d : Char) (pre suf : List Char) : Nat → List Char → List Char
  | _, [] => []
  | 0, a :: rest => a :: rest
  | fuel + 1, a :: rest =>
    if a == d then
      match rest with
      | [] => [a]
      | b :: rest2 =>
        if b == d then
          match splitPair1 d rest2 with
          | some (x, post) => pre ++ x ++ suf ++ subDelimF d pre suf fuel post
          | none => a :: subDelimF d pre suf fuel (b :: rest2)
        else a :: subDelimF d pre suf fuel (b :: rest2)
    else a :: subDelimF d pre suf fuel rest

/-- The substitution itself, with sufficient fuel. -/
def subDelim (d : Char) (pre suf : List Char) (l : List Char) : List Char :=
  subDelimF d pre suf l.length l

/-- `convert_text_formatting(text)`: `**Z**` to `<b>Z</b>`, then
`__W__` to `<em>W</em>`. -/
def convert_text_formatting (text : List Char) : List Char :=
  subDelim '_' ("<em>").data ("</em>").data
    (subDelim '*' ("<b>").data ("</b>").data text)

/-- `remove_char(text, char)`: `text.replace(char, '').replace(char.upper(), '')`. -/
def remove_char (text : List Char) (ch : Char) : List Char :=
  (text.filter (fun c => !(c == ch))).filter (fun c => !(c == ch.toUpper))

/-- The `[[X]]` substitution of the plain-text branch:
`re.sub(r'\[\[(.*?)\]\]', md5_hash, line)`. -/
def subMd5 (line : Line) : Line := subSpan '[' ']' md5_hash line

/-- The `((Y))` substitution of the plain-text branch:
`re.sub(r'\(\((.*?)\)\)', remove_char(Y, 'c'), line)`. -/
def subParens (line : Line) : Line := subSpan '(' ')' (fun y => remove_char y 'c') line

/-- Both substitutions of the plain-text (paragraph) branch, in source
order: `[[X]]` to its MD5 digest, then `((Y))` to `Y` without `c`/`C`. -/
def processTextContent (line : Line) : Line := subParens (subMd5 line)

/-! ## The line classifier and block assembler (`convert_md_to_html`) -/

inductive ListKind where
  | ul
  | ol
deriving DecidableEq

/-- The assembler state carried across loop iterations:
`html_content`, `is_list_open`, `paragraph_lines`. -/
structure AsmState where
  html : List Line
  openList : Option ListKind
  para : List Line
deriving DecidableEq

/-- `close_open_list(html_content, current_list)`: append the closing
tag of the currently open list, if any. -/
def close_open_list (html : List Line) : Option ListKind → List Line
  | some ListKind.ul => html ++ [("</ul>").data]
  | some ListKind.ol => html ++ [("</ol>").data]
  | none => html

/-- The join `' '.join(line if idx == 0 else f"<br/>{line}" ...)` inside
`create_paragraph`: every line after the first is preceded by `" <br/>"`. -/
def brJoin (lines : List Line) : Line :=
  match lines with
  | [] => []
  | l :: rest => l ++ (rest.map (fun x => (" <br/>").data ++ x)).flatten

/-- `create_paragraph(lines)`: join the buffered lines, apply
bold/emphasis formatting to the joined text, and wrap in `<p>` tags. -/
def create_paragraph (lines : List Line) : Line :=
  ("<p>").data ++ convert_text_formatting (brJoin lines) ++ ("</p>").data

/-- Number of leading `#` characters. -/
def hashCount (l : Line) : Nat := (l.takeWhile (fun c => c == '#')).length

/-- `re.match(r'(#{1,6})\s+(.*)', line)` succeeds: between one and six
leading `#` followed by a whitespace character. -/
def isHeadingLine (l : Line) : Bool :=
  let k := hashCount l
  1 ≤ k && k ≤ 6 &&
    (match l.drop k with
     | c :: _ => pyIsSpace c
     | [] => false)

/-- `line.startswith('- ')`. -/
def isDashItem (l : Line) : Bool :=
  match l with
  | '-' :: ' ' :: _ => true
  | _ => false

/-- `line.startswith('* ')`. -/
def isStarItem (l : Line) : Bool :=
  match l with
  | '*' :: ' ' :: _ => true
  | _ => false

/-- A line which is classified as plain paragraph text by the chain of
conditions in the loop: not a heading, not a list item, not blank. -/
def isPlainText (l : Line) : Bool :=
  !isHeadingLine l && !isDashItem l && !isStarItem l && !l.isEmpty

/-- The heading tag `<h{level}>{content}</h{level}>`. -/
def hTag (level : Nat) (content : Line) : Line :=
  ("<h").data ++ (Nat.repr level).data ++ (">").data ++ content
    ++ ("</h").data ++ (Nat.repr level).data ++ (">").data

/-- The list item tag `<li>{content}</li>`. -/
def liTag (content : Line) : Line := ("<li>").data ++ content ++ ("</li>").data

/-- One iteration of the `for line in markdown_content` loop. -/
def processLine (st : AsmState) (rawLine : Line) : AsmState :=
  let line := pyRstrip rawLine
  if isHeadingLine line then
    let k := hashCount line
    { html := close_open_list st.html st.openList ++ [hTag k (pyStrip (line.drop k))]
      openList := none
      para := st.para }
  else if isDashItem line then
    if st.openList = some ListKind.ul then
      { st with html := st.html ++ [liTag (convert_text_formatting (line.drop 2))] }
    else
      { html := close_open_list st.html st.openList
          ++ [("<ul>").data, liTag (convert_text_formatting (line.drop 2))]
        openList := some ListKind.ul
        para := st.para }
  else if isStarItem line then
    if st.openList = some ListKind.ol then
      { st with html := st.html ++ [liTag (convert_text_formatting (line.drop 2))] }
    else
      { html := close_open_list st.html st.openList
          ++ [("<ol>").data, liTag (convert_text_formatting (line.drop 2))]
        openList := some ListKind.ol
        para := st.para }
  else if line.isEmpty then
    if st.para.isEmpty then st
    else
      { html := close_open_list st.html st.openList ++ [create_paragraph st.para]
        openList := none
        para := [] }
  else
    { st with para := st.para ++ [processTextContent line] }

/-- The core conversion: fold the loop over all input lines, then flush
a remaining paragraph and close a remaining open list exactly as the
source does after the loop (note that flushing the final paragraph does
not reset `is_list_open`, so the closing tag can be emitted twice). -/
def convert_md_to_html (rawLines : List Line) : List Line :=
  let st := rawLines.foldl processLine { html := [], openList := none, para := [] }
  let html1 :=
    if st.para.isEmpty then st.html
    else close_open_list st.html st.openList ++ [create_paragraph st.para]
  close_open_list html1 st.openList

/-- `"\n".join(blocks)`. -/
def joinNL : List Line → Line
  | [] => []
  | l :: rest => l ++ (rest.map (fun x => '\n' :: x)).flatten

/-- The full text written to the output file. -/
def fullOutput (rawLines : List Line) : Line := joinNL (convert_md_to_html rawLines)

/-! ## The command-line boundary (`main` and the I/O wrapper)

The file system is modelled as a map from paths to a file state; the
observable outcome of a run is its exit code, the diagnostic written to
the error stream, and the content written to the output file (if any). -/

inductive FileState where
  | absent
  | unreadable
  | readable (rawLines : List Line)

/-- The observable outcome of one invocation. -/
structure RunResult where
  exitCode : Nat
  errOut : Option Line
  written : Option Line
deriving DecidableEq

/-- The usage message of `main`. -/
def usageMsg : Line := ("Usage: ./markdown2html.py README.md README.html").data

/-- The `Missing {path}` diagnostic. -/
def missingMsg (path : Line) : Line := ("Missing ").data ++ path

/-- Modelled from Python runtime semantics: an uncaught exception (here
`PermissionError` from `open`) makes the interpreter print a traceback
naming the offending path to the error stream and exit with code 1. -/
def uncaughtDiag (path : Line) : Line := ("PermissionError: ").data ++ path

/-- `os.path.isfile(path)`: the path references an existing file. -/
def os_path_isfile (fs : Line → FileState) (path : Line) : Bool :=
  match fs path with
  | FileState.absent => false
  | _ => true

/-- `convert_md_to_html(input_file, output_file)` at the I/O level:
read the input (a `FileNotFoundError` is caught and reported as
`Missing {input_file}` with exit code 1; a `PermissionError` is not
caught), convert, and write the joined blocks to the output file. -/
def convert_md_to_html_run (fs : Line → FileState) (input_file : Line) : RunResult :=
  match fs input_file with
  | FileState.readable rawLines =>
    { exitCode := 0, errOut := none, written := some (fullOutput rawLines) }
  | FileState.absent =>
    { exitCode := 1, errOut := some (missingMsg input_file), written := none }
  | FileState.unreadable =>
    { exitCode := 1, errOut := some (uncaughtDiag input_file), written := none }

/-- `main()`: check the argument count, check that the input file
exists, then convert.  `argv` includes the program name. -/
def main (argv : List Line) (fs : Line → FileState) : RunResult :=
  if argv.length ≠ 3 then
    { exitCode := 1, errOut := some usageMsg, written := none }
  else
    let markdown_file := argv.getD 1 []
    if !os_path_isfile fs markdown_file then
      { exitCode := 1, errOut := some (missingMsg markdown_file), written := none }
    else
      convert_md_to_html_run fs markdown_file

/-! ## Helper lemmas about the substitution scanners -/

theorem splitPair_eq_append (c : Char) :
    ∀ (l x post : List Char), splitPair c l = some (x, post) →
      l = x ++ c :: c :: post := by
  intro l
  induction l with
  | nil => intro x post h; simp [splitPair] at h
  | cons a tl ih =>
    intro x post h
    cases tl with
    | nil => simp [splitPair] at h
    | cons b rest =>
      rw [splitPair] at h
      by_cases hab : (a == c && b == c) = true
      · rw [if_pos hab] at h
        simp only [Option.some.injEq, Prod.mk.injEq] at h
        obtain ⟨hx, hpost⟩ := h
        simp only [Bool.and_eq_true, beq_iff_eq] at hab
        obtain ⟨hac, hbc⟩ := hab
        subst hac hbc
        rw [← hx, ← hpost]
        simp
      · rw [if_neg hab] at h
        cases hrec : splitPair c (b :: rest) with
        | none => rw [hrec] at h; exact absurd h (by simp)
        | some pr =>
          obtain ⟨pre, post2⟩ := pr
          rw [hrec] at h
          simp only [Option.some.injEq, Prod.mk.injEq] at h
          obtain ⟨hx, hpost⟩ := h
          have hbr := ih pre post2 hrec
          rw [← hx, ← hpost, List.cons_append, hbr]

theorem splitPair_length (c : Char) (l x post : List Char)
    (h : splitPair c l = some (x, post)) : post.length + 2 ≤ l.length := by
  have h2 := splitPair_eq_append c l x post h
  subst h2
  simp only [List.length_append, List.length_cons]
  omega

theorem splitPair1_length (c : Char) (l x post : List Char)
    (h : splitPair1 c l = some (x, post)) : post.length + 3 ≤ l.length := by
  cases l with
  | nil => simp [splitPair1] at h
  | cons a rest =>
    rw [splitPair1] at h
    cases hrec : splitPair c rest with
    | none => rw [hrec] at h; exact absurd h (by simp)
    | some pr =>
      obtain ⟨x2, post2⟩ := pr
      rw [hrec] at h
      simp only [Option.some.injEq, Prod.mk.injEq] at h
      obtain ⟨hx, hpost⟩ := h
      have h2 := splitPair_length c rest x2 post2 hrec
      rw [← hpost]
      simp only [List.length_cons]
      omega

/-- Any two sufficient fuels give the same result. -/
theorem subSpanF_fuel (opn cls : Char) (f : List Char → List Char) :
    ∀ (m n : Nat) (l : List Char), l.length ≤ m → l.length ≤ n →
      subSpanF opn cls f m l = subSpanF opn cls f n l := by
  intro m
  induction m with
  | zero =>
    intro n l hm _
    have hl : l = [] := List.eq_nil_of_length_eq_zero (Nat.le_zero.mp hm)
    subst hl
    cases n <;> rfl
  | succ m ih =>
    intro n l hm hn
    cases l with
    | nil => cases n <;> rfl
    | cons a rest =>
      cases n with
      | zero => simp at hn
      | succ n =>
        simp only [subSpanF]
        by_cases ha : (a == opn) = true
        · rw [if_pos ha, if_pos ha]
          cases rest with
          | nil => rfl
          | cons b rest2 =>
            dsimp only
            simp only [List.length_cons] at hm hn
            by_cases hb : (b == opn) = true
            · rw [if_pos hb, if_pos hb]
              cases hsp : splitPair cls rest2 with
              | some pr =>
                obtain ⟨x, post⟩ := pr
                have hlen := splitPair_length cls rest2 x post hsp
                simp only
                rw [ih n post (by omega) (by omega)]
              | none =>
                simp only
                rw [ih n (b :: rest2) (by simp only [List.length_cons]; omega)
                  (by simp only [List.length_cons]; omega)]
            · rw [if_neg hb, if_neg hb]
              rw [ih n (b :: rest2) (by simp only [List.length_cons]; omega)
                (by simp only [List.length_cons]; omega)]
        · rw [if_neg ha, if_neg ha]
          simp only [List.length_cons] at hm hn
          rw [ih n rest (by omega) (by omega)]

/-- Splitting an explicitly delimited string: when the closing pair
cannot occur earlier, `splitPair` finds exactly the explicit pair. -/
theorem splitPair_append (c : Char) (b : List Char) :
    ∀ (x : List Char), c ∉ x → splitPair c (x ++ c :: c :: b) = some (x, b) := by
  intro x
  induction x with
  | nil => intro _; simp [splitPair]
  | cons d x' ih =>
    intro hx
    have hdc : ¬(d = c) := fun h => hx (by simp [h])
    have hx' : c ∉ x' := fun hm => hx (List.mem_cons_of_mem d hm)
    cases he : x' ++ c :: c :: b with
    | nil => exact absurd he (by simp)
    | cons e tl =>
      rw [List.cons_append, he, splitPair, if_neg (by simp [hdc]), ← he, ih hx']

/-- A `[[x]]` span preceded by no other opening bracket and whose content
has no closing bracket is replaced by the digest of exactly `x`, and
scanning continues after the span (fueled form). -/
theorem subMd5_span_fuel : ∀ (a x b : List Char) (fuel : Nat),
    (a ++ '[' :: '[' :: (x ++ ']' :: ']' :: b)).length ≤ fuel →
    '[' ∉ a → ']' ∉ x →
    subSpanF '[' ']' md5_hash fuel (a ++ '[' :: '[' :: (x ++ ']' :: ']' :: b)) =
      a ++ md5_hash x ++ subMd5 b := by
  intro a
  induction a with
  | nil =>
    intro x b fuel hfuel _ hx
    simp only [List.nil_append] at hfuel ⊢
    cases fuel with
    | zero => simp at hfuel
    | succ fuel =>
      simp only [List.length_cons, List.length_append] at hfuel
      simp only [subSpanF, beq_self_eq_true, if_true, splitPair_append ']' b x hx]
      have h2 : subSpanF '[' ']' md5_hash fuel b = subMd5 b := by
        unfold subMd5 subSpan
        exact subSpanF_fuel '[' ']' md5_hash fuel b.length b (by omega) le_rfl
      rw [h2]
  | cons ch a' ih =>
    intro x b fuel hfuel ha hx
    have hch : (ch == '[') = false :=
      beq_eq_false_iff_ne.mpr (fun h => ha (by simp [h]))
    have ha' : '[' ∉ a' := fun hm => ha (List.mem_cons_of_mem ch hm)
    cases fuel with
    | zero => simp at hfuel
    | succ fuel =>
      simp only [List.cons_append, List.length_cons] at hfuel ⊢
      simp only [subSpanF, hch, Bool.false_eq_true, if_false]
      rw [ih x b fuel (by omega) ha' hx]

/-- The span lemma at the level of `subMd5` itself. -/
theorem subMd5_span (a x b : List Char) (ha : '[' ∉ a) (hx : ']' ∉ x) :
    subMd5 (a ++ '[' :: '[' :: (x ++ ']' :: ']' :: b)) =
      a ++ md5_hash x ++ subMd5 b :=
  subMd5_span_fuel a x b _ le_rfl ha hx

/-! ## Helper lemmas about the block assembler -/

theorem isHeadingLine_dash (c : Line) : isHeadingLine ('-' :: ' ' :: c) = false := rfl

theorem isHeadingLine_star (c : Line) : isHeadingLine ('*' :: ' ' :: c) = false := rfl

theorem isHeadingLine_h1 (c : Line) : isHeadingLine ('#' :: ' ' :: c) = true := rfl

theorem hashCount_h1 (c : Line) : hashCount ('#' :: ' ' :: c) = 1 := rfl

theorem pyLstrip_space (c : Line) : pyLstrip (' ' :: c) = pyLstrip c := rfl

theorem pyStrip_space (c : Line) : pyStrip (' ' :: c) = pyStrip c := rfl

theorem isDashItem_cons (c : Line) : isDashItem ('-' :: ' ' :: c) = true := rfl

theorem isStarItem_cons (c : Line) : isStarItem ('*' :: ' ' :: c) = true := rfl

/-- The heading branch of the loop, for a level-1 heading line. -/
theorem processLine_heading1 (st : AsmState) (c : Line)
    (h : pyRstrip ('#' :: ' ' :: c) = '#' :: ' ' :: c) :
    processLine st ('#' :: ' ' :: c) =
      { html := close_open_list st.html st.openList ++ [hTag 1 (pyStrip c)]
        openList := none
        para := st.para } := by
  simp only [processLine, h, isHeadingLine_h1, if_true, hashCount_h1, List.drop_succ_cons,
    List.drop_zero, pyStrip_space]

/-- The unordered-list branch of the loop. -/
theorem processLine_dash (st : AsmState) (c : Line)
    (h : pyRstrip ('-' :: ' ' :: c) = '-' :: ' ' :: c) :
    processLine st ('-' :: ' ' :: c) =
      if st.openList = some ListKind.ul then
        { st with html := st.html ++ [liTag (convert_text_formatting c)] }
      else
        { html := close_open_list st.html st.openList
            ++ [("<ul>").data, liTag (convert_text_formatting c)]
          openList := some ListKind.ul
          para := st.para } := by
  simp only [processLine, h, isHeadingLine_dash, isDashItem_cons, if_true,
    Bool.false_eq_true, if_false, List.drop_succ_cons, List.drop_zero]

/-- The ordered-list branch of the loop. -/
theorem processLine_star (st : AsmState) (c : Line)
    (h : pyRstrip ('*' :: ' ' :: c) = '*' :: ' ' :: c) :
    processLine st ('*' :: ' ' :: c) =
      if st.openList = some ListKind.ol then
        { st with html := st.html ++ [liTag (convert_text_formatting c)] }
      else
        { html := close_open_list st.html st.openList
            ++ [("<ol>").data, liTag (convert_text_formatting c)]
          openList := some ListKind.ol
          para := st.para } := by
  have hs : isStarItem ('*' :: ' ' :: c) = true := rfl
  have hd : isDashItem ('*' :: ' ' :: c) = false := rfl
  simp only [processLine, h, isHeadingLine_star, hs, hd, if_true,
    Bool.false_eq_true, if_false, List.drop_succ_cons, List.drop_zero]

/-- The blank-line branch of the loop. -/
theorem processLine_blank (st : AsmState) :
    processLine st [] =
      if st.para.isEmpty then st
      else
        { html := close_open_list st.html st.openList ++ [create_paragraph st.para]
          openList := none
          para := [] } := by
  simp only [processLine]
  rfl

/-- The plain-text branch of the loop. -/
theorem processLine_plain (st : AsmState) (l : Line)
    (hh : isHeadingLine (pyRstrip l) = false)
    (hd : isDashItem (pyRstrip l) = false)
    (hs : isStarItem (pyRstrip l) = false)
    (he : (pyRstrip l).isEmpty = false) :
    processLine st l = { st with para := st.para ++ [processTextContent (pyRstrip l)] } := by
  simp only [processLine, hh, hd, hs, he, Bool.false_eq_true, if_false]

/-- Folding the loop over further unordered-item lines while the
unordered list is already open appends one `<li>` per line. -/
theorem foldl_dash_run (cs : List Line)
    (h : ∀ c ∈ cs, pyRstrip ('-' :: ' ' :: c) = '-' :: ' ' :: c) :
    ∀ html : List Line,
      List.foldl processLine ⟨html, some ListKind.ul, []⟩
          (cs.map (fun c => '-' :: ' ' :: c)) =
        ⟨html ++ cs.map (fun c => liTag (convert_text_formatting c)), some ListKind.ul, []⟩ := by
  induction cs with
  | nil => intro html; simp
  | cons c cs ih =>
    intro html
    simp only [List.map_cons, List.foldl_cons]
    rw [processLine_dash _ _ (h c (List.mem_cons_self c cs))]
    rw [if_pos rfl]
    have ih2 := ih (fun d hd => h d (List.mem_cons_of_mem _ hd))
      (html ++ [liTag (convert_text_formatting c)])
    simp only at ih2 ⊢
    rw [ih2]
    simp

/-- A document consisting of a single run of `- ` lines: one opening
tag, one item per line in order, one closing tag. -/
theorem convert_dash_run (c0 : Line) (cs : List Line)
    (h : ∀ c ∈ c0 :: cs, pyRstrip ('-' :: ' ' :: c) = '-' :: ' ' :: c) :
    convert_md_to_html ((c0 :: cs).map (fun c => '-' :: ' ' :: c)) =
      ("<ul>").data :: (c0 :: cs).map (fun c => liTag (convert_text_formatting c))
        ++ [("</ul>").data] := by
  have hst : List.foldl processLine { html := [], openList := none, para := [] }
      ((c0 :: cs).map (fun c => '-' :: ' ' :: c)) =
      { html := ("<ul>").data :: (c0 :: cs).map (fun c => liTag (convert_text_formatting c))
        openList := some ListKind.ul
        para := [] } := by
    simp only [List.map_cons, List.foldl_cons]
    rw [processLine_dash _ _ (h c0 (List.mem_cons_self c0 cs))]
    rw [if_neg (by simp)]
    have h2 := foldl_dash_run cs (fun d hd => h d (List.mem_cons_of_mem _ hd))
      (close_open_list [] none ++ [("<ul>").data, liTag (convert_text_formatting c0)])
    simp only at h2 ⊢
    rw [h2]
    simp [close_open_list]
  simp only [convert_md_to_html]
  rw [hst]
  simp [close_open_list]

/-- A document consisting of a single level-1 heading line. -/
theorem convert_single_heading1 (c : Line)
    (h : pyRstrip ('#' :: ' ' :: c) = '#' :: ' ' :: c) :
    convert_md_to_html ['#' :: ' ' :: c] = [hTag 1 (pyStrip c)] := by
  simp only [convert_md_to_html, List.foldl_cons, List.foldl_nil]
  rw [processLine_heading1 _ _ h]
  simp [close_open_list]

/-- A document consisting of a single `- ` line. -/
theorem convert_single_dash (c : Line)
    (h : pyRstrip ('-' :: ' ' :: c) = '-' :: ' ' :: c) :
    convert_md_to_html ['-' :: ' ' :: c] =
      [("<ul>").data, liTag (convert_text_formatting c), ("</ul>").data] := by
  have h2 := convert_dash_run c [] (by intro d hd; simp at hd; subst hd; exact h)
  simpa using h2

/-- A document consisting of a single `* ` line. -/
theorem convert_single_star (c : Line)
    (h : pyRstrip ('*' :: ' ' :: c) = '*' :: ' ' :: c) :
    convert_md_to_html ['*' :: ' ' :: c] =
      [("<ol>").data, liTag (convert_text_formatting c), ("</ol>").data] := by
  have hst : processLine { html := [], openList := none, para := [] } ('*' :: ' ' :: c) =
      { html := [("<ol>").data, liTag (convert_text_formatting c)]
        openList := some ListKind.ol
        para := [] } := by
    rw [processLine_star _ _ h]
    simp [close_open_list]
  simp only [convert_md_to_html, List.foldl_cons, List.foldl_nil]
  rw [hst]
  simp [close_open_list]

/-- Decompose the plain-text classification. -/
theorem isPlainText_split (l : Line) (h : isPlainText l = true) :
    isHeadingLine l = false ∧ isDashItem l = false ∧ isStarItem l = false
      ∧ l.isEmpty = false := by
  simp only [isPlainText, Bool.and_eq_true, Bool.not_eq_true'] at h
  exact ⟨h.1.1.1, h.1.1.2, h.1.2, h.2⟩

/-- Two consecutive plain-text lines end up in one `<p>` block, joined
with the break marker, with per-line substitutions already applied and
bold/emphasis applied to the joined text. -/
theorem convert_two_plain (a b : Line)
    (ha : isPlainText (pyRstrip a) = true) (hb : isPlainText (pyRstrip b) = true) :
    convert_md_to_html [a, b] =
      [("<p>").data ++ convert_text_formatting
          (processTextContent (pyRstrip a) ++ (" <br/>").data
            ++ processTextContent (pyRstrip b))
        ++ ("</p>").data] := by
  obtain ⟨hh1, hd1, hs1, he1⟩ := isPlainText_split _ ha
  obtain ⟨hh2, hd2, hs2, he2⟩ := isPlainText_split _ hb
  simp only [convert_md_to_html, List.foldl_cons, List.foldl_nil]
  rw [processLine_plain _ a hh1 hd1 hs1 he1, processLine_plain _ b hh2 hd2 hs2 he2]
  simp [close_open_list, create_paragraph, brJoin, List.append_assoc]

/-- A single plain-text line becomes one `<p>` block with no break
marker inserted. -/
theorem convert_one_plain (a : Line) (ha : isPlainText (pyRstrip a) = true) :
    convert_md_to_html [a] =
      [("<p>").data ++ convert_text_formatting (processTextContent (pyRstrip a))
        ++ ("</p>").data] := by
  obtain ⟨hh1, hd1, hs1, he1⟩ := isPlainText_split _ ha
  simp only [convert_md_to_html, List.foldl_cons, List.foldl_nil]
  rw [processLine_plain _ a hh1 hd1 hs1 he1]
  simp [close_open_list, create_paragraph, brJoin]

/-- A blank line between two plain-text lines yields two separate
`<p>` blocks. -/
theorem convert_plain_blank_plain (a b : Line)
    (ha : isPlainText (pyRstrip a) = true) (hb : isPlainText (pyRstrip b) = true) :
    convert_md_to_html [a, [], b] =
      [("<p>").data ++ convert_text_formatting (processTextContent (pyRstrip a))
        ++ ("</p>").data,
       ("<p>").data ++ convert_text_formatting (processTextContent (pyRstrip b))
        ++ ("</p>").data] := by
  obtain ⟨hh1, hd1, hs1, he1⟩ := isPlainText_split _ ha
  obtain ⟨hh2, hd2, hs2, he2⟩ := isPlainText_split _ hb
  simp only [convert_md_to_html, List.foldl_cons, List.foldl_nil]
  rw [processLine_plain _ a hh1 hd1 hs1 he1]
  rw [processLine_blank]
  simp only [List.nil_append, List.isEmpty_cons, Bool.false_eq_true, if_false]
  rw [processLine_plain _ b hh2 hd2 hs2 he2]
  simp [close_open_list, create_paragraph, brJoin]

/-! ## The claims -/

set_option maxRecDepth 10000

/-- C1: the claim that blocks are emitted in document order (a paragraph
whose lines precede a heading appears before that heading) is violated
by the code: the heading branch does not flush the paragraph buffer, so
the buffered paragraph is emitted after the heading, at the next blank
line or at end of input.  This theorem evaluates the code at the failing
input. -/
theorem c1_paragraph_after_heading :
    convert_md_to_html [("Intro").data, ("# Title").data] =
      [("<h1>Title</h1>").data, ("<p>Intro</p>").data] := by decide

/-- C2: the claimed state invariant (at most one of open-list/paragraph
buffer active; opening either closes the other; a heading closes both)
is violated: after a list item followed by a plain-text line, the list
is still open while the paragraph buffer is non-empty, and at end of
input the list closing tag is emitted twice. -/
theorem c2_list_and_paragraph_both_open :
    convert_md_to_html [("- item").data, ("text").data] =
      [("<ul>").data, ("<li>item</li>").data, ("</ul>").data, ("<p>text</p>").data,
       ("</ul>").data]
    ∧ (List.foldl processLine { html := [], openList := none, para := [] }
        [("- item").data, ("text").data]).openList = some ListKind.ul
    ∧ (List.foldl processLine { html := [], openList := none, para := [] }
        [("- item").data, ("text").data]).para = [("text").data] :=
  ⟨by decide, by decide, by decide⟩

/-- C3 counterexample: a heading's content is not run through the inline
formatter at all: a bold span in a heading is left as literal
asterisks. -/
theorem c3_counterexample :
    convert_md_to_html [("# **b**").data] = [("<h1>**b**</h1>").data] := by decide

/-- C3 (amended): heading content is only whitespace-trimmed, with no
inline transform; list-item content receives only the bold and emphasis
transforms (no `[[X]]` hashing, no `((Y))` letter removal); all four
transforms apply only to plain-text paragraph lines. -/
theorem c3_inline_formatting_per_block_kind :
    (∀ c : Line, pyRstrip ('#' :: ' ' :: c) = '#' :: ' ' :: c →
      convert_md_to_html ['#' :: ' ' :: c] = [hTag 1 (pyStrip c)])
    ∧ (∀ c : Line, pyRstrip ('-' :: ' ' :: c) = '-' :: ' ' :: c →
      convert_md_to_html ['-' :: ' ' :: c] =
        [("<ul>").data, liTag (convert_text_formatting c), ("</ul>").data])
    ∧ convert_md_to_html [("- [[hi]]").data] =
        [("<ul>").data, ("<li>[[hi]]</li>").data, ("</ul>").data] :=
  ⟨convert_single_heading1, convert_single_dash, by decide⟩

/-- C3 witness: the amended claim applied to the heading line `# T`. -/
theorem c3_witness :
    convert_md_to_html ['#' :: ' ' :: ("T").data] = [hTag 1 (pyStrip (("T").data))] :=
  c3_inline_formatting_per_block_kind.1 (("T").data) (by decide)

/-- C4 counterexample: a blank line does not close an open list when no
paragraph is buffered: two dash runs separated by a blank line merge
into a single `<ul>`. -/
theorem c4_counterexample :
    convert_md_to_html [("- a").data, ("").data, ("- b").data] =
      [("<ul>").data, ("<li>a</li>").data, ("<li>b</li>").data, ("</ul>").data] := by
  decide

/-- C4 (amended): a document that is exactly a run of N `- ` lines
produces one opening tag, N items in input order and one closing tag; a
`* ` line closes the open unordered list; a blank line closes it only
when a non-empty paragraph buffer is flushed at that point. -/
theorem c4_list_runs :
    (∀ (c0 : Line) (cs : List Line),
      (∀ c ∈ c0 :: cs, pyRstrip ('-' :: ' ' :: c) = '-' :: ' ' :: c) →
      convert_md_to_html ((c0 :: cs).map (fun c => '-' :: ' ' :: c)) =
        ("<ul>").data :: (c0 :: cs).map (fun c => liTag (convert_text_formatting c))
          ++ [("</ul>").data])
    ∧ convert_md_to_html [("- a").data, ("* b").data] =
        [("<ul>").data, ("<li>a</li>").data, ("</ul>").data,
         ("<ol>").data, ("<li>b</li>").data, ("</ol>").data]
    ∧ convert_md_to_html [("- a").data, ("x").data, ("").data] =
        [("<ul>").data, ("<li>a</li>").data, ("</ul>").data, ("<p>x</p>").data] :=
  ⟨convert_dash_run, by decide, by decide⟩

/-- C4 witness: the run part of the amended claim applied to the
two-line run `- a`, `- b`. -/
theorem c4_witness :
    convert_md_to_html (([("a").data, ("b").data]).map (fun c => '-' :: ' ' :: c)) =
      ("<ul>").data :: ([("a").data, ("b").data]).map
          (fun c => liTag (convert_text_formatting c))
        ++ [("</ul>").data] :=
  c4_list_runs.1 (("a").data) [("b").data] (by decide)

/-- C5 counterexample: a bold span opened on one paragraph line and
closed on the next is turned into a bold wrapping that crosses the
line-break marker, because bold/emphasis run on the joined text. -/
theorem c5_counterexample :
    convert_md_to_html [("a **b").data, ("c** d").data] =
      [("<p>a <b>b <br/>c</b> d</p>").data] := by decide

/-- C5 (amended): only the `[[X]]` and `((Y))` substitutions are applied
to each source line individually at buffering time; the bold and
emphasis substitutions are applied to the joined paragraph text, so
those spans can cross original line boundaries. -/
theorem c5_per_line_and_joined_formatting :
    (∀ (st : AsmState) (l : Line),
      isHeadingLine (pyRstrip l) = false → isDashItem (pyRstrip l) = false →
      isStarItem (pyRstrip l) = false → (pyRstrip l).isEmpty = false →
      processLine st l = { st with para := st.para ++ [processTextContent (pyRstrip l)] })
    ∧ (∀ lines : List Line, create_paragraph lines =
        ("<p>").data ++ convert_text_formatting (brJoin lines) ++ ("</p>").data) :=
  ⟨processLine_plain, fun _ => rfl⟩

/-- C5 witness: the per-line part applied to the plain line `hi` in the
initial state. -/
theorem c5_witness :
    processLine { html := [], openList := none, para := [] } (("hi").data) =
      { html := [], openList := none, para := [("hi").data] } :=
  c5_per_line_and_joined_formatting.1 { html := [], openList := none, para := [] }
    (("hi").data) (by decide) (by decide) (by decide) (by decide)

/-- C6: two consecutive plain-text lines merge into exactly one
paragraph block with a break marker between them, a single plain line
gives one paragraph with no inserted marker, and a blank line between
two plain lines gives two separate paragraph blocks. -/
theorem c6_paragraph_merging (a b : Line)
    (ha : isPlainText (pyRstrip a) = true) (hb : isPlainText (pyRstrip b) = true) :
    convert_md_to_html [a, b] =
      [("<p>").data ++ convert_text_formatting
          (processTextContent (pyRstrip a) ++ (" <br/>").data
            ++ processTextContent (pyRstrip b))
        ++ ("</p>").data]
    ∧ convert_md_to_html [a] =
      [("<p>").data ++ convert_text_formatting (processTextContent (pyRstrip a))
        ++ ("</p>").data]
    ∧ convert_md_to_html [a, [], b] =
      [("<p>").data ++ convert_text_formatting (processTextContent (pyRstrip a))
        ++ ("</p>").data,
       ("<p>").data ++ convert_text_formatting (processTextContent (pyRstrip b))
        ++ ("</p>").data] :=
  ⟨convert_two_plain a b ha hb, convert_one_plain a ha, convert_plain_blank_plain a b ha hb⟩

/-- C6 witness: the merge applied to the plain lines `x` and `y`. -/
theorem c6_witness :
    convert_md_to_html [("x").data, ("y").data] =
      [("<p>").data ++ convert_text_formatting
          (processTextContent (pyRstrip (("x").data)) ++ (" <br/>").data
            ++ processTextContent (pyRstrip (("y").data)))
        ++ ("</p>").data] :=
  (c6_paragraph_merging (("x").data) (("y").data) (by decide) (by decide)).1

/-- C7: in a plain-text line, a non-greedy `[[X]]` span (no earlier
opening bracket, no closing bracket inside `X`) is replaced by the
lowercase hexadecimal MD5 digest of the literal text `X`, the brackets
being discarded and scanning continuing after the span; in particular
the digest of `hello` is the fixed 32-character value. -/
theorem c7_md5_spans :
    (∀ (a x b : List Char), '[' ∉ a → ']' ∉ x →
      subMd5 (a ++ '[' :: '[' :: (x ++ ']' :: ']' :: b)) = a ++ md5_hash x ++ subMd5 b)
    ∧ md5_hash (("hello").data) = ("5d41402abc4b2a76b9719d911017c592").data :=
  ⟨subMd5_span, by decide⟩

/-- C7 witness: the span substitution applied inside the line
`ab[[hello]]cd`. -/
theorem c7_witness :
    subMd5 (("ab[[hello]]cd").data) =
      ("ab").data ++ md5_hash (("hello").data) ++ subMd5 (("cd").data) :=
  c7_md5_spans.1 (("ab").data) (("hello").data) (("cd").data) (by decide) (by decide)

/-- C8: the core conversion is total: it is a function defined on every
input line sequence, and the empty input produces the empty block
sequence and the empty output text. -/
theorem c8_conversion_total :
    convert_md_to_html [] = [] ∧ fullOutput [] = []
    ∧ ∀ rawLines : List Line, ∃ blocks : List Line, convert_md_to_html rawLines = blocks :=
  ⟨rfl, rfl, fun rawLines => ⟨convert_md_to_html rawLines, rfl⟩⟩

/-- C9: a wrong argument count exits with code 1, a usage diagnostic on
the error stream, and no output written; a non-existent input path exits
with code 1, the diagnostic `Missing {path}` naming the path, and no
output written; an existing but unreadable input path exits with code 1,
a diagnostic naming the path, and no output written. -/
theorem c9_cli_error_handling :
    (∀ (argv : List Line) (fs : Line → FileState), argv.length ≠ 3 →
      main argv fs = { exitCode := 1, errOut := some usageMsg, written := none })
    ∧ (∀ (a0 p out : Line) (fs : Line → FileState), fs p = FileState.absent →
      main [a0, p, out] fs = { exitCode := 1, errOut := some (missingMsg p), written := none })
    ∧ (∀ (a0 p out : Line) (fs : Line → FileState), fs p = FileState.unreadable →
      main [a0, p, out] fs =
        { exitCode := 1, errOut := some (uncaughtDiag p), written := none }) := by
  refine ⟨?_, ?_, ?_⟩
  · intro argv fs h
    simp [main, h]
  · intro a0 p out fs h
    simp [main, os_path_isfile, convert_md_to_html_run, h]
  · intro a0 p out fs h
    simp [main, os_path_isfile, convert_md_to_html_run, h]

/-- C9 witness: invoking on a missing `README.md`. -/
theorem c9_witness :
    main [("./markdown2html.py").data, ("README.md").data, ("README.html").data]
        (fun _ => FileState.absent) =
      { exitCode := 1, errOut := some (missingMsg (("README.md").data)), written := none } :=
  c9_cli_error_handling.2.1 (("./markdown2html.py").data) (("README.md").data)
    (("README.html").data) (fun _ => FileState.absent) rfl

/-- C10: the implementation's resolutions of the spec's design choices:
`- ` opens/extends a `<ul>`, `* ` opens/extends a `<ol>`, and the output
is the bare sequence of block strings joined by single newlines with no
enclosing document shell. -/
theorem c10_design_choices :
    (∀ rawLines : List Line, fullOutput rawLines = joinNL (convert_md_to_html rawLines))
    ∧ (∀ c : Line, pyRstrip ('-' :: ' ' :: c) = '-' :: ' ' :: c →
      convert_md_to_html ['-' :: ' ' :: c] =
        [("<ul>").data, liTag (convert_text_formatting c), ("</ul>").data])
    ∧ (∀ c : Line, pyRstrip ('*' :: ' ' :: c) = '*' :: ' ' :: c →
      convert_md_to_html ['*' :: ' ' :: c] =
        [("<ol>").data, liTag (convert_text_formatting c), ("</ol>").data])
    ∧ fullOutput [("- a").data, ("* b").data] =
        ("<ul>\n<li>a</li>\n</ul>\n<ol>\n<li>b</li>\n</ol>").data :=
  ⟨fun _ => rfl, convert_single_dash, convert_single_star, by decide⟩

/-- C10 witness: the ordered-list resolution applied to the line `* x`. -/
theorem c10_witness :
    convert_md_to_html ['*' :: ' ' :: ("x").data] =
      [("<ol>").data, liTag (convert_text_formatting (("x").data)), ("</ol>").data] :=
  c10_design_choices.2.2.1 (("x").data) (by decide)

end Markdown2Html
